import Mathlib

/-!
Shallow embedding of `scripts/generate_kbar.py` (the random-walk candle
generator and the universe → per-symbol batch pipeline).

Modelling conventions:
* Prices, random draws and volumes are exact rationals (`ℚ`).  Python's
  `random.uniform(a, b)` is `a + (b - a) * random()` where `random()`
  yields a value in `[0, 1)`; the RNG is modelled as a stream
  `rng : Nat → ℚ` of those unit draws together with an explicit cursor
  that each `uniform` call advances by one.  One seed determines one
  stream, so two runs with the same seed see the same stream.
* Instants are integers (seconds); `datetime.now(timezone.utc)` is a
  per-call reading from a clock stream `clock : Nat → Int` (the n-th
  generation call of a run reads `clock n`), since the script calls
  `datetime.now` inside every `generate_rows` invocation.
* `Path` values are strings; `pathlib` joining appends with `/`, except
  that joining with an absolute right-hand side keeps only the
  right-hand side.  `Path.is_absolute` on POSIX is "starts with `/`".
  Python's `str.strip` and `str.replace` are modelled on the character
  list underlying the string.
* File writes are recorded as events (path together with the rows
  written); CSV serialization is a fixed injective function of the row
  values, so two files are byte-identical exactly when their recorded
  rows coincide.
* `SystemExit` is `Except.error`; a run that raises writes nothing.
-/

/-- One OHLCV candle, with the fields of the row dict built in
`generate_rows` (`open`/`close` are rendered `open_price`/`close_price`,
the local variable names of the source). -/
structure Candle where
  timestamp : Int
  open_price : ℚ
  high : ℚ
  low : ℚ
  close_price : ℚ
  volume : ℚ
deriving DecidableEq, Repr, Inhabited

/-- Python `random.uniform a b` applied to one unit draw `u`:
`a + (b - a) * u`. -/
def uniform (a b u : ℚ) : ℚ :=
  a + (b - a) * u

/-- The body of the `for i in range(length)` loop of `generate_rows`:
one candle from the running price, the timestamp, and the three unit
draws consumed in source order (drift, span factor, volume). -/
def candle_step (price : ℚ) (ts : Int) (u_drift u_span u_vol : ℚ) : Candle :=
  let drift := uniform (-2/100) (2/100) u_drift
  let open_price := price
  let close_price := max (1/100) (open_price * (1 + drift))
  let span := open_price * uniform (1/1000) (1/100) u_span
  let high := max open_price close_price + span
  let low := max (1/100) (min open_price close_price - span)
  let volume := uniform 50 5000 u_vol
  { timestamp := ts, open_price := open_price, high := high, low := low,
    close_price := close_price, volume := volume }

/-- The loop of `generate_rows`: `n` candles starting at timestamp `ts`,
RNG cursor `pos`, running price `price`.  Returns the candles and the
final RNG cursor (each iteration consumes three draws: drift, span
factor, volume, in that order). -/
def gen_loop (interval_seconds : Int) (rng : Nat → ℚ) :
    Nat → Int → Nat → ℚ → List Candle × Nat
  | 0, _, pos, _ => ([], pos)
  | n + 1, ts, pos, price =>
    let c := candle_step price ts (rng pos) (rng (pos + 1)) (rng (pos + 2))
    let rest := gen_loop interval_seconds rng n (ts + interval_seconds) (pos + 3) c.close_price
    (c :: rest.1, rest.2)

/-- `generate_rows(length, interval_seconds, rng)` of the source, with the
implicit inputs made explicit: `now` is this call's reading of
`datetime.now(timezone.utc)` and `pos` the RNG cursor on entry.
`start_time = now - interval_seconds * length`; the walk starts at
price `100.0`. -/
def generate_rows (length : Nat) (interval_seconds : Int) (now : Int)
    (rng : Nat → ℚ) (pos : Nat) : List Candle × Nat :=
  gen_loop interval_seconds rng length (now - interval_seconds * length) pos 100

/-- One universe row.  The six named columns are required on load; the
`exchange` field models an optional extra `exchange` column of the CSV
(`meta.get("exchange", "")` in `main`), empty when the column is
absent. -/
structure UniverseRow where
  filters : String
  badge : String
  symbol : String
  name : String
  market : String
  venue : String
  exchange : String
deriving DecidableEq, Repr, Inhabited

/-- The universe CSV as seen by `read_universe`: whether the file
exists, its header, and its data rows. -/
structure UniverseFile where
  present : Bool
  header : List String
  rows : List UniverseRow
deriving DecidableEq, Repr, Inhabited

/-- `UNIVERSE_FIELDS` of the source. -/
def UNIVERSE_FIELDS : List String :=
  ["filters", "badge", "symbol", "name", "market", "venue"]

/-- `read_universe` of the source: `SystemExit` if the file is absent,
if a required column is missing from the header, or if no row with a
non-empty `symbol` remains. -/
def read_universe (u : UniverseFile) : Except String (List UniverseRow) :=
  if u.present = false then .error "universe file not found"
  else if UNIVERSE_FIELDS.filter (fun c => ¬ c ∈ u.header) ≠ [] then
    .error "universe is missing columns"
  else
    let rows := u.rows.filter (fun r => ¬ r.symbol = "")
    if rows = [] then .error "no symbols found in universe" else .ok rows

/-- Python `str.strip()` (ASCII whitespace suffices for this code
base): drop whitespace from both ends of the character list. -/
def py_strip (s : String) : String :=
  ⟨((s.data.dropWhile Char.isWhitespace).reverse.dropWhile Char.isWhitespace).reverse⟩

/-- `dict.setdefault` on an insertion-ordered string-keyed dict,
modelled as an association list: keep the dict unchanged when the key
is already bound, otherwise append the binding at the end. -/
def setdefault (d : List (String × UniverseRow)) (k : String) (v : UniverseRow) :
    List (String × UniverseRow) :=
  if d.any (fun p => p.1 == k) then d else d ++ [(k, v)]

/-- `unique_symbols` of the source: fold the rows, keying each row by
its stripped symbol, skipping rows whose stripped symbol is empty, and
letting the first occurrence win (`setdefault`).  Python dicts iterate
in insertion order, so the association list order is the dict order. -/
def unique_symbols (universe_rows : List UniverseRow) : List (String × UniverseRow) :=
  universe_rows.foldl
    (fun d row =>
      if py_strip row.symbol = "" then d else setdefault d (py_strip row.symbol) row)
    []

/-- Python `s.replace("\\", "/")`. -/
def replace_backslash (s : String) : String :=
  ⟨s.data.map (fun c => if c = '\\' then '/' else c)⟩

/-- POSIX `Path.is_absolute`. -/
def is_absolute (p : String) : Bool :=
  p.data.head? == some '/'

/-- `pathlib` `/` join on POSIX: an absolute right-hand side replaces
the left-hand side, otherwise the parts are separated by `/`. -/
def path_join (a b : String) : String :=
  if is_absolute b then b else a ++ "/" ++ b

/-- `mapping_path_for` of the source: an absolute target is used as-is;
otherwise `str(Path("..") / output_file).replace("\\", "/")`. -/
def mapping_path_for (output_file : String) : String :=
  if is_absolute output_file then output_file
  else replace_backslash ("../" ++ output_file)

/-- One mapping CSV row (`MAPPING_FIELDS` order). -/
structure MappingRow where
  symbol : String
  name : String
  exchange : String
  source : String
  filters : String
  badge : String
  market : String
  venue : String
deriving DecidableEq, Repr, Inhabited

/-- Python `a or b` on strings: `a` when non-empty, else `b`. -/
def py_or (a b : String) : String :=
  if a = "" then b else a

/-- The mapping row built in `main`'s loop for dict entry `(symbol,
meta)`: `exchange` is `meta.get("venue", "") or meta.get("exchange",
"")`, `source` is `mapping_path_for` of the symbol's candle path. -/
def mapping_row_for (out_dir : String) (p : String × UniverseRow) : MappingRow :=
  { symbol := p.1
    name := p.2.name
    exchange := py_or p.2.venue p.2.exchange
    source := mapping_path_for (path_join out_dir (p.1 ++ ".csv"))
    filters := p.2.filters
    badge := p.2.badge
    market := p.2.market
    venue := p.2.venue }

/-- The observable output of a successful run: the per-symbol candle
writes in loop order (`write_candles` events) and the final mapping
write (`write_mapping`). -/
structure RunResult where
  candle_writes : List (String × List Candle)
  mapping_write : String × List MappingRow
deriving DecidableEq, Repr, Inhabited

/-- The `for idx, (symbol, meta) in enumerate(symbols.items(), ...)`
loop of `main`: `n` is the index of the next generation call (it
selects this call's clock reading), `pos` the shared RNG cursor. -/
def run_loop (length : Nat) (interval_seconds : Int) (rng : Nat → ℚ)
    (clock : Nat → Int) (out_dir : String) :
    List (String × UniverseRow) → Nat → Nat →
      List (String × List Candle) × List MappingRow
  | [], _, _ => ([], [])
  | p :: rest, n, pos =>
    let output_file := path_join out_dir (p.1 ++ ".csv")
    let gen := generate_rows length interval_seconds (clock n) rng pos
    let tail := run_loop length interval_seconds rng clock out_dir rest (n + 1) gen.2
    ((output_file, gen.1) :: tail.1, mapping_row_for out_dir p :: tail.2)

/-- `main` of the source with its effects made explicit: CLI numbers,
the seed-determined draw stream, the per-call clock stream, the
universe file, and the output paths.  Validation failures are
`Except.error` (the process exits before writing anything). -/
def main_run (length interval_seconds : Int) (rng : Nat → ℚ) (clock : Nat → Int)
    (univ : UniverseFile) (out_dir mapping_output : String) :
    Except String RunResult :=
  if length ≤ 0 then .error "length must be positive"
  else if interval_seconds ≤ 0 then .error "interval-seconds must be positive"
  else
    match read_universe univ with
    | .error e => .error e
    | .ok universe_rows =>
      let symbols := unique_symbols universe_rows
      let r := run_loop length.toNat interval_seconds rng clock out_dir symbols 0 0
      .ok { candle_writes := r.1, mapping_write := (mapping_output, r.2) }

/-- Reference deduplication written from the specification's dedup
description, with the key corrected to the whitespace-stripped symbol:
scan the rows in order, drop a row whose stripped symbol is empty, keep
the first row of each distinct stripped symbol together with its
metadata, drop every later row with the same stripped symbol, and
preserve first-seen order.  To be compared with `unique_symbols`. -/
def dedup_spec : List UniverseRow → List (String × UniverseRow)
  | [] => []
  | r :: rest =>
    if py_strip r.symbol = "" then dedup_spec rest
    else
      (py_strip r.symbol, r) ::
        dedup_spec (rest.filter (fun r2 => ¬ py_strip r2.symbol = py_strip r.symbol))
termination_by l => l.length
decreasing_by
  all_goals simp [Nat.lt_succ_iff]
  exact List.length_filter_le _ _

/-- The OHLCV part of a candle (everything but the timestamp). -/
def ohlcv (c : Candle) : ℚ × ℚ × ℚ × ℚ × ℚ :=
  (c.open_price, c.high, c.low, c.close_price, c.volume)

/-- Whether a run succeeded (exit status zero). -/
def run_ok (r : Except String RunResult) : Bool :=
  match r with
  | .ok _ => true
  | .error _ => false

/-- How many candle files a run wrote (an aborted run wrote none). -/
def files_written (r : Except String RunResult) : Nat :=
  match r with
  | .error _ => 0
  | .ok res => res.candle_writes.length

/-- The mapping file's row count, `none` when the run aborted before
writing the mapping file. -/
def mapping_rows_written (r : Except String RunResult) : Option Nat :=
  match r with
  | .error _ => none
  | .ok res => some res.mapping_write.2.length

/-- The path of the n-th candle write of a run. -/
def candle_path (r : Except String RunResult) (n : Nat) : Option String :=
  match r with
  | .error _ => none
  | .ok res => (res.candle_writes[n]?).map Prod.fst

/-- The timestamp of the i-th candle of the n-th candle write. -/
def candle_ts (r : Except String RunResult) (n i : Nat) : Option Int :=
  match r with
  | .error _ => none
  | .ok res => (res.candle_writes[n]?).bind fun w => (w.2[i]?).map Candle.timestamp

/-- The timestamp of the last candle of the n-th candle write. -/
def candle_last_ts (r : Except String RunResult) (n : Nat) : Option Int :=
  match r with
  | .error _ => none
  | .ok res => (res.candle_writes[n]?).bind fun w => w.2.getLast?.map Candle.timestamp

/-- The `source` column of the n-th mapping row. -/
def mapping_source (r : Except String RunResult) (n : Nat) : Option String :=
  match r with
  | .error _ => none
  | .ok res => (res.mapping_write.2[n]?).map MappingRow.source

/-- The `symbol` column of the n-th mapping row. -/
def mapping_symbol (r : Except String RunResult) (n : Nat) : Option String :=
  match r with
  | .error _ => none
  | .ok res => (res.mapping_write.2[n]?).map MappingRow.symbol

/-- A run's output with the candle timestamps forgotten: the error
text, the candle write paths, every OHLCV value, and the entire mapping
write are kept. -/
def forget_time (r : Except String RunResult) :
    Except String (List (String × List (ℚ × ℚ × ℚ × ℚ × ℚ)) × (String × List MappingRow)) :=
  match r with
  | .error e => .error e
  | .ok res => .ok (res.candle_writes.map (fun w => (w.1, w.2.map ohlcv)), res.mapping_write)

/-- Sample universe row: plain symbol. -/
def rowA : UniverseRow :=
  ⟨"Stocks", "STK", "AAPL", "Apple Inc.", "equity", "NASDAQ", ""⟩

/-- Sample universe row: symbol with a leading space, different
metadata. -/
def rowA2 : UniverseRow :=
  ⟨"Stocks", "STK", " AAPL", "dup", "equity", "NYSE", ""⟩

/-- Sample universe row: second plain symbol. -/
def rowT : UniverseRow :=
  ⟨"Stocks", "STK", "TSLA", "Tesla, Inc.", "equity", "NASDAQ", ""⟩

/-- Sample universe row: non-empty, whitespace-only symbol. -/
def rowWS : UniverseRow :=
  ⟨"Stocks", "STK", " ", "Blank", "equity", "X", ""⟩

/-- Sample universe row: symbol containing a backslash. -/
def rowBS : UniverseRow :=
  ⟨"Stocks", "STK", "A\\B", "Backslash", "equity", "X", ""⟩

/-- Sample universe file with one plain symbol. -/
def ufileA : UniverseFile := ⟨true, UNIVERSE_FIELDS, [rowA]⟩

/-- Sample universe file with two symbols. -/
def ufileAT : UniverseFile := ⟨true, UNIVERSE_FIELDS, [rowA, rowT]⟩

/-- Sample universe file whose only symbol is whitespace-only. -/
def ufileWS : UniverseFile := ⟨true, UNIVERSE_FIELDS, [rowWS]⟩

/-- Sample universe file whose only symbol contains a backslash. -/
def ufileBS : UniverseFile := ⟨true, UNIVERSE_FIELDS, [rowBS]⟩

/-- A constant unit-draw stream. -/
def half : Nat → ℚ := fun _ => 1/2

theorem gen_loop_length (I : Int) (rng : Nat → ℚ) :
    ∀ (n : Nat) (ts : Int) (pos : Nat) (price : ℚ),
      (gen_loop I rng n ts pos price).1.length = n
  | 0, _, _, _ => rfl
  | n + 1, ts, pos, price => by
    simp only [gen_loop, List.length_cons, gen_loop_length I rng n]

theorem gen_loop_cursor (I : Int) (rng : Nat → ℚ) :
    ∀ (n : Nat) (ts : Int) (pos : Nat) (price : ℚ),
      (gen_loop I rng n ts pos price).2 = pos + 3 * n
  | 0, _, _, _ => by simp [gen_loop]
  | n + 1, ts, pos, price => by
    simp only [gen_loop, gen_loop_cursor I rng n]
    ring

theorem gen_loop_getElem? (I : Int) (rng : Nat → ℚ) :
    ∀ (n : Nat) (ts : Int) (pos : Nat) (price : ℚ) (j : Nat) (c : Candle),
      (gen_loop I rng n ts pos price).1[j]? = some c →
      ∃ p : ℚ, c = candle_step p (ts + I * j)
        (rng (pos + 3 * j)) (rng (pos + 3 * j + 1)) (rng (pos + 3 * j + 2))
  | 0, _, _, _, j, c => by simp [gen_loop]
  | n + 1, ts, pos, price, 0, c => by
    intro h
    simp only [gen_loop, List.getElem?_cons_zero, Option.some.injEq] at h
    exact ⟨price, by simp [← h]⟩
  | n + 1, ts, pos, price, j + 1, c => by
    intro h
    simp only [gen_loop, List.getElem?_cons_succ] at h
    obtain ⟨p, hp⟩ := gen_loop_getElem? I rng n (ts + I) (pos + 3) _ j c h
    refine ⟨p, ?_⟩
    have h1 : ts + I + I * j = ts + I * (j + 1) := by ring
    have h2 : pos + 3 + 3 * j = pos + 3 * (j + 1) := by ring
    rw [hp, h1, h2]
    norm_cast

theorem gen_loop_zero_open (I : Int) (rng : Nat → ℚ)
    (n : Nat) (ts : Int) (pos : Nat) (price : ℚ) (c : Candle)
    (h : (gen_loop I rng n ts pos price).1[0]? = some c) :
    c.open_price = price := by
  cases n with
  | zero => simp [gen_loop] at h
  | succ n =>
    simp only [gen_loop, List.getElem?_cons_zero, Option.some.injEq] at h
    rw [← h]
    rfl

theorem gen_loop_chain (I : Int) (rng : Nat → ℚ) :
    ∀ (n : Nat) (ts : Int) (pos : Nat) (price : ℚ) (j : Nat) (c c' : Candle),
      (gen_loop I rng n ts pos price).1[j]? = some c →
      (gen_loop I rng n ts pos price).1[j + 1]? = some c' →
      c'.open_price = c.close_price
  | 0, _, _, _, j, c, c' => by simp [gen_loop]
  | n + 1, ts, pos, price, 0, c, c' => by
    intro h h'
    simp only [gen_loop, List.getElem?_cons_zero, List.getElem?_cons_succ,
      Option.some.injEq] at h h'
    have := gen_loop_zero_open I rng n (ts + I) (pos + 3)
      (candle_step price ts (rng pos) (rng (pos + 1)) (rng (pos + 2))).close_price c' h'
    rw [this, ← h]
  | n + 1, ts, pos, price, j + 1, c, c' => by
    intro h h'
    simp only [gen_loop, List.getElem?_cons_succ] at h h'
    exact gen_loop_chain I rng n (ts + I) (pos + 3) _ j c c' h h'

theorem gen_loop_agree (I : Int) (rng rng' : Nat → ℚ) :
    ∀ (n : Nat) (ts : Int) (pos : Nat) (price : ℚ),
      (∀ i, pos ≤ i → i < pos + 3 * n → rng i = rng' i) →
      gen_loop I rng n ts pos price = gen_loop I rng' n ts pos price
  | 0, _, _, _ => fun _ => rfl
  | n + 1, ts, pos, price => by
    intro hagree
    have h0 : rng pos = rng' pos := hagree pos (le_refl _) (by omega)
    have h1 : rng (pos + 1) = rng' (pos + 1) := hagree _ (by omega) (by omega)
    have h2 : rng (pos + 2) = rng' (pos + 2) := hagree _ (by omega) (by omega)
    have htail : ∀ i, pos + 3 ≤ i → i < pos + 3 + 3 * n → rng i = rng' i := by
      intro i hi hi'
      exact hagree i (by omega) (by omega)
    simp only [gen_loop, h0, h1, h2, gen_loop_agree I rng rng' n (ts + I) (pos + 3) _ htail]

theorem gen_loop_ohlcv (I : Int) (rng : Nat → ℚ) :
    ∀ (n : Nat) (ts ts' : Int) (pos : Nat) (price : ℚ),
      (gen_loop I rng n ts pos price).1.map ohlcv =
        (gen_loop I rng n ts' pos price).1.map ohlcv
  | 0, _, _, _, _ => rfl
  | n + 1, ts, ts', pos, price => by
    have hstep : ∀ t, ohlcv (candle_step price t (rng pos) (rng (pos + 1)) (rng (pos + 2))) =
        ohlcv (candle_step price 0 (rng pos) (rng (pos + 1)) (rng (pos + 2))) := by
      intro t
      rfl
    simp only [gen_loop, List.map_cons, hstep]
    have hclose : ∀ t, (candle_step price t (rng pos) (rng (pos + 1)) (rng (pos + 2))).close_price
        = (candle_step price 0 (rng pos) (rng (pos + 1)) (rng (pos + 2))).close_price := by
      intro t
      rfl
    rw [hclose ts, hclose ts',
      gen_loop_ohlcv I rng n (ts + I) (ts' + I) (pos + 3) _]

theorem candle_step_inv (price : ℚ) (ts : Int) (u0 u1 u2 : ℚ)
    (hprice : 1/100 ≤ price) (h1 : 0 ≤ u1) (h2 : 0 ≤ u2) :
    (candle_step price ts u0 u1 u2).low ≤
        min (candle_step price ts u0 u1 u2).open_price
          (candle_step price ts u0 u1 u2).close_price ∧
      max (candle_step price ts u0 u1 u2).open_price
          (candle_step price ts u0 u1 u2).close_price ≤
        (candle_step price ts u0 u1 u2).high ∧
      1/100 ≤ (candle_step price ts u0 u1 u2).open_price ∧
      1/100 ≤ (candle_step price ts u0 u1 u2).high ∧
      1/100 ≤ (candle_step price ts u0 u1 u2).low ∧
      1/100 ≤ (candle_step price ts u0 u1 u2).close_price ∧
      0 < (candle_step price ts u0 u1 u2).volume := by
  have ho : (candle_step price ts u0 u1 u2).open_price = price := rfl
  have hc : (candle_step price ts u0 u1 u2).close_price =
      max (1/100) (price * (1 + uniform (-2/100) (2/100) u0)) := rfl
  have hh : (candle_step price ts u0 u1 u2).high =
      max (candle_step price ts u0 u1 u2).open_price
          (candle_step price ts u0 u1 u2).close_price +
        price * uniform (1/1000) (1/100) u1 := rfl
  have hl : (candle_step price ts u0 u1 u2).low =
      max (1/100)
        (min (candle_step price ts u0 u1 u2).open_price
            (candle_step price ts u0 u1 u2).close_price -
          price * uniform (1/1000) (1/100) u1) := rfl
  have hv : (candle_step price ts u0 u1 u2).volume = uniform 50 5000 u2 := rfl
  have hufac : 0 ≤ uniform (1/1000) (1/100) u1 := by
    unfold uniform
    nlinarith
  have hspan : 0 ≤ price * uniform (1/1000) (1/100) u1 :=
    mul_nonneg (le_trans (by norm_num) hprice) hufac
  have hco : 1/100 ≤ (candle_step price ts u0 u1 u2).close_price := by
    rw [hc]
    exact le_max_left _ _
  have hoo : 1/100 ≤ (candle_step price ts u0 u1 u2).open_price := by
    rw [ho]
    exact hprice
  refine ⟨?_, ?_, hoo, ?_, ?_, hco, ?_⟩
  · rw [hl]
    exact max_le (le_min hoo hco) (sub_le_self _ hspan)
  · rw [hh]
    exact le_add_of_nonneg_right hspan
  · rw [hh]
    have : 1/100 ≤ max (candle_step price ts u0 u1 u2).open_price
        (candle_step price ts u0 u1 u2).close_price :=
      le_trans hoo (le_max_left _ _)
    linarith
  · rw [hl]
    exact le_max_left _ _
  · rw [hv]
    unfold uniform
    nlinarith

theorem gen_loop_inv (I : Int) (rng : Nat → ℚ) (hr : ∀ i, 0 ≤ rng i) :
    ∀ (n : Nat) (ts : Int) (pos : Nat) (price : ℚ), 1/100 ≤ price →
      ∀ c ∈ (gen_loop I rng n ts pos price).1,
        c.low ≤ min c.open_price c.close_price ∧
        max c.open_price c.close_price ≤ c.high ∧
        1/100 ≤ c.open_price ∧ 1/100 ≤ c.high ∧ 1/100 ≤ c.low ∧
        1/100 ≤ c.close_price ∧ 0 < c.volume
  | 0, _, _, _ => by
    intro _ c hc
    simp [gen_loop] at hc
  | n + 1, ts, pos, price => by
    intro hprice c hc
    simp only [gen_loop, List.mem_cons] at hc
    rcases hc with hc | hc
    · rw [hc]
      exact candle_step_inv price ts (rng pos) (rng (pos + 1)) (rng (pos + 2)) hprice
        (hr (pos + 1)) (hr (pos + 2))
    · have hclose : 1/100 ≤
          (candle_step price ts (rng pos) (rng (pos + 1)) (rng (pos + 2))).close_price :=
        le_max_left _ _
      exact gen_loop_inv I rng hr n (ts + I) (pos + 3) _ hclose c hc

theorem gen_loop_getLast_ts (I : Int) (rng : Nat → ℚ) (n : Nat) (ts : Int) (pos : Nat)
    (price : ℚ) (hn : 0 < n) :
    (gen_loop I rng n ts pos price).1.getLast?.map Candle.timestamp =
      some (ts + I * (n - 1 : Nat)) := by
  have hlen := gen_loop_length I rng n ts pos price
  have h1 : n - 1 < (gen_loop I rng n ts pos price).1.length := by omega
  have hsome : (gen_loop I rng n ts pos price).1[n - 1]? =
      some ((gen_loop I rng n ts pos price).1[n - 1]) :=
    List.getElem?_eq_getElem h1
  obtain ⟨p, hp⟩ := gen_loop_getElem? I rng n ts pos price (n - 1) _ hsome
  rw [List.getLast?_eq_getElem?, hlen, hsome, hp]
  rfl

theorem dedup_spec_cons_of_empty (r : UniverseRow) (l : List UniverseRow)
    (h : py_strip r.symbol = "") : dedup_spec (r :: l) = dedup_spec l := by
  simp [dedup_spec, h]

theorem dedup_spec_cons_of_ne (r : UniverseRow) (l : List UniverseRow)
    (h : ¬ py_strip r.symbol = "") :
    dedup_spec (r :: l) =
      (py_strip r.symbol, r) ::
        dedup_spec (l.filter (fun r2 => ¬ py_strip r2.symbol = py_strip r.symbol)) := by
  simp [dedup_spec, h]

theorem setdefault_of_mem (d : List (String × UniverseRow)) (k : String) (v : UniverseRow)
    (h : d.any (fun p => p.1 == k)) : setdefault d k v = d := by
  unfold setdefault
  rw [if_pos h]

theorem setdefault_of_not_mem (d : List (String × UniverseRow)) (k : String) (v : UniverseRow)
    (h : d.any (fun p => p.1 == k) = false) : setdefault d k v = d ++ [(k, v)] := by
  unfold setdefault
  rw [if_neg (by simp [h])]

theorem unique_symbols_foldl :
    ∀ (rows : List UniverseRow) (d : List (String × UniverseRow)),
      rows.foldl
          (fun d row =>
            if py_strip row.symbol = "" then d else setdefault d (py_strip row.symbol) row) d =
        d ++ dedup_spec (rows.filter (fun r => !(d.any (fun p => p.1 == py_strip r.symbol))))
  | [], d => by simp [dedup_spec]
  | row :: rest, d => by
    simp only [List.foldl_cons, List.filter_cons]
    by_cases ht : py_strip row.symbol = ""
    · rw [if_pos ht]
      by_cases hmem : d.any (fun p => p.1 == py_strip row.symbol)
      · simp only [hmem, Bool.not_true, Bool.false_eq_true, if_false]
        exact unique_symbols_foldl rest d
      · rw [Bool.not_eq_true] at hmem
        simp only [hmem, Bool.not_false, if_true]
        rw [unique_symbols_foldl rest d, dedup_spec_cons_of_empty row _ ht]
    · rw [if_neg ht]
      by_cases hmem : d.any (fun p => p.1 == py_strip row.symbol)
      · simp only [hmem, Bool.not_true, Bool.false_eq_true, if_false]
        rw [setdefault_of_mem d _ row hmem]
        exact unique_symbols_foldl rest d
      · rw [Bool.not_eq_true] at hmem
        simp only [hmem, Bool.not_false, if_true]
        rw [setdefault_of_not_mem d _ row hmem]
        rw [unique_symbols_foldl rest (d ++ [(py_strip row.symbol, row)]),
          dedup_spec_cons_of_ne row _ ht]
        rw [List.append_assoc]
        simp only [List.singleton_append]
        congr 2
        rw [List.filter_filter]
        refine congrArg dedup_spec (List.filter_congr ?_)
        intro r2 _
        by_cases h2 : py_strip r2.symbol = py_strip row.symbol
        · simp [h2]
        · simp [h2, Ne.symm h2]

theorem unique_symbols_eq_dedup_spec (rows : List UniverseRow) :
    unique_symbols rows = dedup_spec rows := by
  unfold unique_symbols
  rw [unique_symbols_foldl rows []]
  simp

theorem generate_rows_cursor (L : Nat) (I now : Int) (rng : Nat → ℚ) (pos : Nat) :
    (generate_rows L I now rng pos).2 = pos + 3 * L := by
  unfold generate_rows
  exact gen_loop_cursor I rng L _ pos 100

theorem run_loop_lengths (L : Nat) (I : Int) (rng : Nat → ℚ) (clock : Nat → Int)
    (out : String) :
    ∀ (syms : List (String × UniverseRow)) (n pos : Nat),
      (run_loop L I rng clock out syms n pos).1.length = syms.length ∧
      (run_loop L I rng clock out syms n pos).2.length = syms.length
  | [], _, _ => ⟨rfl, rfl⟩
  | p :: rest, n, pos => by
    have ih := run_loop_lengths L I rng clock out rest (n + 1)
      (generate_rows L I (clock n) rng pos).2
    simp [run_loop, ih.1, ih.2]

theorem run_loop_writes_getElem? (L : Nat) (I : Int) (rng : Nat → ℚ) (clock : Nat → Int)
    (out : String) :
    ∀ (syms : List (String × UniverseRow)) (n pos k : Nat),
      (run_loop L I rng clock out syms n pos).1[k]? =
        (syms[k]?).map (fun p =>
          (path_join out (p.1 ++ ".csv"),
            (generate_rows L I (clock (n + k)) rng (pos + 3 * L * k)).1))
  | [], _, _, _ => by simp [run_loop]
  | p :: rest, n, pos, 0 => by simp [run_loop]
  | p :: rest, n, pos, k + 1 => by
    simp only [run_loop, List.getElem?_cons_succ]
    rw [run_loop_writes_getElem? L I rng clock out rest (n + 1) _ k]
    rw [generate_rows_cursor]
    have h1 : n + 1 + k = n + (k + 1) := by omega
    have h2 : pos + 3 * L + 3 * L * k = pos + 3 * L * (k + 1) := by ring
    rw [h1, h2]

theorem run_loop_mapping_getElem? (L : Nat) (I : Int) (rng : Nat → ℚ) (clock : Nat → Int)
    (out : String) :
    ∀ (syms : List (String × UniverseRow)) (n pos k : Nat),
      (run_loop L I rng clock out syms n pos).2[k]? =
        (syms[k]?).map (mapping_row_for out)
  | [], _, _, _ => by simp [run_loop]
  | p :: rest, n, pos, 0 => by simp [run_loop]
  | p :: rest, n, pos, k + 1 => by
    simp only [run_loop, List.getElem?_cons_succ]
    exact run_loop_mapping_getElem? L I rng clock out rest (n + 1) _ k

theorem read_universe_absent (u : UniverseFile) (hp : u.present = false) :
    read_universe u = .error "universe file not found" := by
  unfold read_universe
  rw [if_pos hp]

theorem read_universe_missing_col (u : UniverseFile) (hc : ∃ c ∈ UNIVERSE_FIELDS, c ∉ u.header) :
    u.present = true → read_universe u = .error "universe is missing columns" := by
  intro hp
  unfold read_universe
  rw [if_neg (by simp [hp])]
  rw [if_pos ?_]
  obtain ⟨c, hcu, hch⟩ := hc
  intro hnil
  rw [List.filter_eq_nil_iff] at hnil
  exact (hnil c hcu) (by simpa using hch)

theorem read_universe_no_rows (u : UniverseFile) (hp : u.present = true)
    (hh : ∀ c ∈ UNIVERSE_FIELDS, c ∈ u.header)
    (hr : u.rows.filter (fun r => ¬ r.symbol = "") = []) :
    read_universe u = .error "no symbols found in universe" := by
  unfold read_universe
  rw [if_neg (by simp [hp])]
  rw [if_neg (by
    simp only [ne_eq, not_not, List.filter_eq_nil_iff]
    intro c hc
    simp [hh c hc])]
  rw [hr]
  simp

theorem read_universe_ok (u : UniverseFile) (hp : u.present = true)
    (hh : ∀ c ∈ UNIVERSE_FIELDS, c ∈ u.header)
    (hr : u.rows.filter (fun r => ¬ r.symbol = "") ≠ []) :
    read_universe u = .ok (u.rows.filter (fun r => ¬ r.symbol = "")) := by
  unfold read_universe
  rw [if_neg (by simp [hp])]
  rw [if_neg (by
    simp only [ne_eq, not_not, List.filter_eq_nil_iff]
    intro c hc
    simp [hh c hc])]
  simp only [if_neg hr]

theorem main_run_of_read_error (L I : Int) (rng : Nat → ℚ) (clock : Nat → Int)
    (u : UniverseFile) (out mp : String) (e : String)
    (hL : 0 < L) (hI : 0 < I) (hu : read_universe u = .error e) :
    main_run L I rng clock u out mp = .error e := by
  unfold main_run
  rw [if_neg (by omega), if_neg (by omega), hu]

theorem main_run_ok (L I : Int) (rng : Nat → ℚ) (clock : Nat → Int)
    (u : UniverseFile) (out mp : String) (rows : List UniverseRow)
    (hL : 0 < L) (hI : 0 < I) (hu : read_universe u = .ok rows) :
    main_run L I rng clock u out mp =
      .ok ⟨(run_loop L.toNat I rng clock out (unique_symbols rows) 0 0).1,
        (mp, (run_loop L.toNat I rng clock out (unique_symbols rows) 0 0).2)⟩ := by
  unfold main_run
  rw [if_neg (by omega), if_neg (by omega), hu]

theorem candle_step_timestamp (p : ℚ) (ts : Int) (a b c : ℚ) :
    (candle_step p ts a b c).timestamp = ts := rfl

theorem list_getD_mem {α : Type} (l : List α) (i : Nat) (d : α) (h : i < l.length) :
    l.getD i d ∈ l := by
  rw [List.getD_eq_getElem?_getD, List.getElem?_eq_getElem h]
  simp [List.getElem_mem]

/-- C1: every candle produced by the generator — for any length, any
interval, any call time, any entry cursor into the shared draw stream,
and any draw stream whose unit draws lie in `[0, 1)` as Python's
`random()` guarantees — satisfies
`low ≤ min(open, close) ≤ max(open, close) ≤ high`, has all four prices
at least `0.01`, and has positive volume. -/
theorem C1_candle_invariants (length : Nat) (interval_seconds now : Int)
    (rng : Nat → ℚ) (pos : Nat) (hr : ∀ i, 0 ≤ rng i ∧ rng i < 1) :
    ∀ c ∈ (generate_rows length interval_seconds now rng pos).1,
      c.low ≤ min c.open_price c.close_price ∧
      min c.open_price c.close_price ≤ max c.open_price c.close_price ∧
      max c.open_price c.close_price ≤ c.high ∧
      1/100 ≤ c.open_price ∧ 1/100 ≤ c.high ∧ 1/100 ≤ c.low ∧
      1/100 ≤ c.close_price ∧ 0 < c.volume := by
  intro c hc
  have h := gen_loop_inv interval_seconds rng (fun i => (hr i).1) length
    (now - interval_seconds * length) pos 100 (by norm_num) c hc
  exact ⟨h.1, min_le_max, h.2.1, h.2.2.1, h.2.2.2.1, h.2.2.2.2.1,
    h.2.2.2.2.2.1, h.2.2.2.2.2.2⟩

/-- Witness for C1: the hypotheses hold and the invariants are
realized at `length = 1`, `interval = 60`, `now = 0`, constant
draw `1/2`, cursor `0`. -/
theorem C1_candle_invariants_witness :
    ((generate_rows 1 60 0 half 0).1.getD 0 default).low ≤
        min ((generate_rows 1 60 0 half 0).1.getD 0 default).open_price
          ((generate_rows 1 60 0 half 0).1.getD 0 default).close_price ∧
      min ((generate_rows 1 60 0 half 0).1.getD 0 default).open_price
          ((generate_rows 1 60 0 half 0).1.getD 0 default).close_price ≤
        max ((generate_rows 1 60 0 half 0).1.getD 0 default).open_price
          ((generate_rows 1 60 0 half 0).1.getD 0 default).close_price ∧
      max ((generate_rows 1 60 0 half 0).1.getD 0 default).open_price
          ((generate_rows 1 60 0 half 0).1.getD 0 default).close_price ≤
        ((generate_rows 1 60 0 half 0).1.getD 0 default).high ∧
      1/100 ≤ ((generate_rows 1 60 0 half 0).1.getD 0 default).open_price ∧
      1/100 ≤ ((generate_rows 1 60 0 half 0).1.getD 0 default).high ∧
      1/100 ≤ ((generate_rows 1 60 0 half 0).1.getD 0 default).low ∧
      1/100 ≤ ((generate_rows 1 60 0 half 0).1.getD 0 default).close_price ∧
      0 < ((generate_rows 1 60 0 half 0).1.getD 0 default).volume :=
  C1_candle_invariants 1 60 0 half 0
    (fun _ => ⟨by norm_num [half], by norm_num [half]⟩) _
    (list_getD_mem _ 0 default (by decide))

/-- C2: in every generated sequence, each next candle opens at the
previous candle's close and its timestamp is exactly
`interval_seconds` later. -/
theorem C2_continuity (length : Nat) (interval_seconds now : Int) (rng : Nat → ℚ)
    (pos i : Nat) (c c' : Candle)
    (hc : (generate_rows length interval_seconds now rng pos).1[i]? = some c)
    (hc' : (generate_rows length interval_seconds now rng pos).1[i + 1]? = some c') :
    c'.open_price = c.close_price ∧ c'.timestamp - c.timestamp = interval_seconds := by
  constructor
  · exact gen_loop_chain interval_seconds rng length _ pos 100 i c c' hc hc'
  · obtain ⟨p, hp⟩ := gen_loop_getElem? interval_seconds rng length _ pos 100 i c hc
    obtain ⟨p', hp'⟩ := gen_loop_getElem? interval_seconds rng length _ pos 100 (i + 1) c' hc'
    rw [hp, hp', candle_step_timestamp, candle_step_timestamp]
    push_cast
    ring

/-- Witness for C2 at `length = 2`, `interval = 60`, `now = 0`,
constant draw `1/2`: the second candle opens at the first's close and
is 60 seconds later. -/
theorem C2_continuity_witness :
    ((generate_rows 2 60 0 half 0).1.getD 1 default).open_price =
        ((generate_rows 2 60 0 half 0).1.getD 0 default).close_price ∧
      ((generate_rows 2 60 0 half 0).1.getD 1 default).timestamp -
        ((generate_rows 2 60 0 half 0).1.getD 0 default).timestamp = 60 :=
  C2_continuity 2 60 0 half 0 0 _ _ rfl rfl

/-- C10: (a) each generation call consumes exactly `3 × length` draws
from the shared stream; (b) the i-th candle of a call uses the draw at
cursor `pos + 3i` as drift, the one at `pos + 3i + 1` as span factor
and the one at `pos + 3i + 2` as volume; (c) therefore, in a batch
run, the OHLCV values of the symbol at position n depend only on the
stream, length and interval — not on the symbol names, their metadata,
the clock, or the output directory. -/
theorem C10_rng_discipline :
    (∀ (L : Nat) (I now : Int) (rng : Nat → ℚ) (pos : Nat),
        (generate_rows L I now rng pos).2 = pos + 3 * L) ∧
      (∀ (L : Nat) (I now : Int) (rng : Nat → ℚ) (pos i : Nat) (c : Candle),
        (generate_rows L I now rng pos).1[i]? = some c →
          c.close_price =
              max (1/100)
                (c.open_price * (1 + uniform (-2/100) (2/100) (rng (pos + 3 * i)))) ∧
            c.high = max c.open_price c.close_price +
                c.open_price * uniform (1/1000) (1/100) (rng (pos + 3 * i + 1)) ∧
            c.low = max (1/100) (min c.open_price c.close_price -
                c.open_price * uniform (1/1000) (1/100) (rng (pos + 3 * i + 1))) ∧
            c.volume = uniform 50 5000 (rng (pos + 3 * i + 2))) ∧
      (∀ (L : Nat) (I : Int) (rng : Nat → ℚ) (clock1 clock2 : Nat → Int)
        (out1 out2 : String) (syms1 syms2 : List (String × UniverseRow)) (n : Nat),
        n < syms1.length → n < syms2.length →
          ((run_loop L I rng clock1 out1 syms1 0 0).1[n]?).map (fun w => w.2.map ohlcv) =
            ((run_loop L I rng clock2 out2 syms2 0 0).1[n]?).map (fun w => w.2.map ohlcv)) := by
  refine ⟨?_, ?_, ?_⟩
  · intro L I now rng pos
    exact generate_rows_cursor L I now rng pos
  · intro L I now rng pos i c hc
    obtain ⟨p, hp⟩ := gen_loop_getElem? I rng L _ pos 100 i c hc
    subst hp
    exact ⟨rfl, rfl, rfl, rfl⟩
  · intro L I rng clock1 clock2 out1 out2 syms1 syms2 n hn1 hn2
    rw [run_loop_writes_getElem?, run_loop_writes_getElem?]
    rw [List.getElem?_eq_getElem hn1, List.getElem?_eq_getElem hn2]
    simp only [Option.map_some']
    unfold generate_rows
    rw [gen_loop_ohlcv I rng L (clock1 (0 + n) - I * L) (clock2 (0 + n) - I * L) (0 + 3 * L * n)]

/-- Witness for C10: the three parts at concrete inputs — a two-candle
call advances the cursor from 0 to 6; the first candle's volume is the
draw at cursor 2 stretched to `[50, 5000]`; two runs over different
one-symbol universes, clocks and output directories produce the same
OHLCV values at position 0. -/
theorem C10_rng_discipline_witness :
    (generate_rows 2 60 0 half 0).2 = 0 + 3 * 2 ∧
      ((generate_rows 1 60 0 half 0).1.getD 0 default).volume =
        uniform 50 5000 (half (0 + 3 * 0 + 2)) ∧
      ((run_loop 1 60 half (fun _ => 0) "data/candles" [("AAPL", rowA)] 0 0).1[0]?).map
          (fun w => w.2.map ohlcv) =
        ((run_loop 1 60 half (fun n => 60 * n) "other" [("TSLA", rowT)] 0 0).1[0]?).map
          (fun w => w.2.map ohlcv) :=
  ⟨C10_rng_discipline.1 2 60 0 half 0,
    (C10_rng_discipline.2.1 1 60 0 half 0 0 _ rfl).2.2.2,
    C10_rng_discipline.2.2 1 60 half (fun _ => 0) (fun n => 60 * n) "data/candles" "other"
      [("AAPL", rowA)] [("TSLA", rowT)] 0 (by decide) (by decide)⟩

theorem run_loop_forget (L : Nat) (I : Int) (rng : Nat → ℚ) (clock1 clock2 : Nat → Int)
    (out : String) :
    ∀ (syms : List (String × UniverseRow)) (n pos : Nat),
      (run_loop L I rng clock1 out syms n pos).1.map (fun w => (w.1, w.2.map ohlcv)) =
          (run_loop L I rng clock2 out syms n pos).1.map (fun w => (w.1, w.2.map ohlcv)) ∧
        (run_loop L I rng clock1 out syms n pos).2 =
          (run_loop L I rng clock2 out syms n pos).2
  | [], _, _ => ⟨rfl, rfl⟩
  | p :: rest, n, pos => by
    have hcur1 := generate_rows_cursor L I (clock1 n) rng pos
    have hcur2 := generate_rows_cursor L I (clock2 n) rng pos
    have ih := run_loop_forget L I rng clock1 clock2 out rest (n + 1) (pos + 3 * L)
    have hohlcv : (generate_rows L I (clock1 n) rng pos).1.map ohlcv =
        (generate_rows L I (clock2 n) rng pos).1.map ohlcv := by
      unfold generate_rows
      exact gen_loop_ohlcv I rng L _ _ pos 100
    simp [run_loop, hcur1, hcur2, ih.1, ih.2, hohlcv]

/-- C3 counterexample: two pipeline runs with identical draw stream
(seed), identical universe, identical length and interval, but started
at different instants, write different candle rows — the sole candle's
timestamp is −60 in the first run and 0 in the second — so the candle
files are not byte-identical. -/
theorem C3_determinism_cex :
    candle_ts (main_run 1 60 half (fun _ => 0) ufileA "data/candles" "data/mapping.csv") 0 0 =
        some (-60) ∧
      candle_ts (main_run 1 60 half (fun _ => 60) ufileA "data/candles" "data/mapping.csv") 0 0 =
        some 0 ∧
      ¬ ((some (-60) : Option Int) = some 0) :=
  ⟨by decide, by decide, by decide⟩

/-- C3 amended: two runs with identical seed (draw stream), universe,
length, interval and output paths agree on everything except possibly
candle timestamps — the error behaviour, the candle file paths, every
OHLCV value and the entire mapping file coincide whatever clock
readings the two runs see; runs that also share their clock readings
are therefore fully identical, byte for byte. -/
theorem C3_determinism_amended (L I : Int) (rng : Nat → ℚ) (clock1 clock2 : Nat → Int)
    (u : UniverseFile) (out mp : String) :
    forget_time (main_run L I rng clock1 u out mp) =
      forget_time (main_run L I rng clock2 u out mp) := by
  unfold main_run
  by_cases hL : L ≤ 0
  · rw [if_pos hL, if_pos hL]
  · rw [if_neg hL, if_neg hL]
    by_cases hI : I ≤ 0
    · rw [if_pos hI, if_pos hI]
    · rw [if_neg hI, if_neg hI]
      cases hread : read_universe u with
      | error e => rfl
      | ok rows =>
        have h := run_loop_forget L.toNat I rng clock1 clock2 out (unique_symbols rows) 0 0
        simp [forget_time, h.1, h.2]

/-- C4 counterexample: in one batch run over two symbols, the clock
advances between the two generation calls, and the two series end 60
seconds apart — there is no single anchor fixed at pipeline start. -/
theorem C4_shared_anchor_cex :
    candle_last_ts
        (main_run 1 60 half (fun n => 60 * n) ufileAT "data/candles" "data/mapping.csv") 0 =
        some (-60) ∧
      candle_last_ts
        (main_run 1 60 half (fun n => 60 * n) ufileAT "data/candles" "data/mapping.csv") 1 =
        some 0 ∧
      ¬ ((some (-60) : Option Int) = some 0) :=
  ⟨by decide, by decide, by decide⟩

/-- C4 amended: the anchor time is read by each generation call
(`datetime.now` inside `generate_rows`), not fixed once at pipeline
start: the n-th symbol's series ends at that call's own clock reading
minus one interval, so all series end together only when every call
reads the same clock value. -/
theorem C4_anchor_per_call_amended (L I : Int) (rng : Nat → ℚ) (clock : Nat → Int)
    (u : UniverseFile) (out mp : String) (rows : List UniverseRow) (n : Nat)
    (hL : 0 < L) (hI : 0 < I) (hu : read_universe u = .ok rows)
    (hn : n < (unique_symbols rows).length) :
    candle_last_ts (main_run L I rng clock u out mp) n = some (clock n - I) := by
  rw [main_run_ok L I rng clock u out mp rows hL hI hu]
  show ((run_loop L.toNat I rng clock out (unique_symbols rows) 0 0).1[n]?).bind
      (fun w => w.2.getLast?.map Candle.timestamp) = some (clock n - I)
  rw [run_loop_writes_getElem?, List.getElem?_eq_getElem hn]
  simp only [Option.map_some', Option.some_bind]
  unfold generate_rows
  rw [gen_loop_getLast_ts I rng L.toNat _ _ 100 (by omega)]
  have hL1 : ((L.toNat - 1 : Nat) : Int) = (L.toNat : Int) - 1 := by omega
  have hLL : ((L.toNat : Nat) : Int) = L := Int.toNat_of_nonneg (by omega)
  rw [hL1, hLL]
  congr 1
  ring_nf

/-- Witness for C4 amended: at length 1, interval 60, a clock reading
0 for the first call, the first symbol's series ends at −60. -/
theorem C4_anchor_per_call_amended_witness :
    candle_last_ts
        (main_run 1 60 half (fun n => 60 * n) ufileAT "data/candles" "data/mapping.csv") 0 =
      some (-60) := by
  have h := C4_anchor_per_call_amended 1 60 half (fun n => 60 * n) ufileAT "data/candles"
    "data/mapping.csv" [rowA, rowT] 0 (by norm_num) (by norm_num) rfl (by decide)
  simpa using h

/-- C5 counterexample: the rows `rowA` (symbol `"AAPL"`) and `rowA2`
(symbol `" AAPL"`) have different exact symbol fields, yet
`unique_symbols` collapses them to one entry — the key is the
whitespace-stripped symbol, not the exact field, so deduplication is
not "by exact string match of the symbol field". -/
theorem C5_exact_dedup_cex :
    (unique_symbols [rowA, rowA2]).map Prod.fst = ["AAPL"] ∧
      ¬ rowA.symbol = rowA2.symbol :=
  ⟨by decide, by decide⟩

/-- C5 amended: symbols are deduplicated by exact string match of the
whitespace-stripped symbol field (rows whose stripped symbol is empty
are dropped); the first occurrence's metadata wins, later rows with
the same stripped symbol are dropped entirely, and first-seen order is
preserved: on every row list `unique_symbols` coincides with the
reference `dedup_spec`, which scans rows in order keeping the first
row of each distinct stripped symbol. -/
theorem C5_dedup_amended (rows : List UniverseRow) :
    unique_symbols rows = dedup_spec rows :=
  unique_symbols_eq_dedup_spec rows

/-- C6 counterexample: a universe whose single row has the non-empty
symbol `" "` contains one unique non-empty symbol, yet the pipeline
succeeds with zero candle files and zero mapping rows. -/
theorem C6_row_count_cex :
    ¬ rowWS.symbol = "" ∧
      ufileWS.rows = [rowWS] ∧
      run_ok (main_run 1 60 half (fun _ => 0) ufileWS "data/candles" "data/mapping.csv") = true ∧
      files_written (main_run 1 60 half (fun _ => 0) ufileWS "data/candles" "data/mapping.csv")
        = 0 ∧
      mapping_rows_written
        (main_run 1 60 half (fun _ => 0) ufileWS "data/candles" "data/mapping.csv") = some 0 :=
  ⟨by decide, rfl, by decide, by decide, by decide⟩

/-- C6 amended: for every universe input that loads successfully, the
pipeline writes exactly one candle file and one mapping row per
distinct symbol that is non-empty after whitespace-stripping among the
loaded rows (`k = (dedup_spec rows).length`). -/
theorem C6_row_count_amended (L I : Int) (rng : Nat → ℚ) (clock : Nat → Int)
    (u : UniverseFile) (out mp : String) (rows : List UniverseRow)
    (hL : 0 < L) (hI : 0 < I) (hu : read_universe u = .ok rows) :
    files_written (main_run L I rng clock u out mp) = (dedup_spec rows).length ∧
      mapping_rows_written (main_run L I rng clock u out mp) =
        some ((dedup_spec rows).length) := by
  rw [main_run_ok L I rng clock u out mp rows hL hI hu]
  have hlen := run_loop_lengths L.toNat I rng clock out (unique_symbols rows) 0 0
  simp only [files_written, mapping_rows_written]
  rw [← unique_symbols_eq_dedup_spec rows]
  exact ⟨hlen.1, by rw [hlen.2]⟩

/-- Witness for C6 amended: the two-symbol universe `ufileAT` yields
two candle files and two mapping rows. -/
theorem C6_row_count_amended_witness :
    files_written (main_run 1 60 half (fun _ => 0) ufileAT "data/candles" "data/mapping.csv")
        = 2 ∧
      mapping_rows_written
        (main_run 1 60 half (fun _ => 0) ufileAT "data/candles" "data/mapping.csv") = some 2 := by
  have h := C6_row_count_amended 1 60 half (fun _ => 0) ufileAT "data/candles"
    "data/mapping.csv" [rowA, rowT] (by norm_num) (by norm_num) rfl
  have hk : (dedup_spec [rowA, rowT]).length = 2 := by
    simp +decide [dedup_spec, rowA, rowT]
  rw [hk] at h
  exact h

/-- C7: with valid numeric arguments, the pipeline fails fatally —
and records no candle write and no mapping write — whenever the
universe file is absent, a required column is missing from its header,
or no row with a non-empty symbol field remains. -/
theorem C7_universe_load_fatal (L I : Int) (rng : Nat → ℚ) (clock : Nat → Int)
    (u : UniverseFile) (out mp : String)
    (hL : 0 < L) (hI : 0 < I)
    (h : u.present = false ∨ (∃ c ∈ UNIVERSE_FIELDS, c ∉ u.header) ∨
      u.rows.filter (fun r => ¬ r.symbol = "") = []) :
    run_ok (main_run L I rng clock u out mp) = false ∧
      files_written (main_run L I rng clock u out mp) = 0 ∧
      mapping_rows_written (main_run L I rng clock u out mp) = none := by
  have herr : ∃ e, read_universe u = .error e := by
    by_cases hp : u.present = true
    · rcases h with h | h | h
      · rw [hp] at h
        cases h
      · exact ⟨_, read_universe_missing_col u h hp⟩
      · by_cases hh : ∀ c ∈ UNIVERSE_FIELDS, c ∈ u.header
        · exact ⟨_, read_universe_no_rows u hp hh h⟩
        · push_neg at hh
          exact ⟨_, read_universe_missing_col u hh hp⟩
    · rw [Bool.not_eq_true] at hp
      exact ⟨_, read_universe_absent u hp⟩
  obtain ⟨e, he⟩ := herr
  rw [main_run_of_read_error L I rng clock u out mp e hL hI he]
  exact ⟨rfl, rfl, rfl⟩

/-- Witness for C7: an absent universe file makes the run fail with
nothing written. -/
theorem C7_universe_load_fatal_witness :
    run_ok (main_run 1 60 half (fun _ => 0) ⟨false, [], []⟩ "data/candles" "data/mapping.csv")
        = false ∧
      files_written
        (main_run 1 60 half (fun _ => 0) ⟨false, [], []⟩ "data/candles" "data/mapping.csv") = 0 ∧
      mapping_rows_written
        (main_run 1 60 half (fun _ => 0) ⟨false, [], []⟩ "data/candles" "data/mapping.csv")
        = none :=
  C7_universe_load_fatal 1 60 half (fun _ => 0) ⟨false, [], []⟩ "data/candles" "data/mapping.csv"
    (by norm_num) (by norm_num) (Or.inl rfl)

/-- C8 counterexample: for the symbol `A\B` the candle file path is
relative, but the recorded mapping source is not that path prefixed
with one `..` step — the backslash has also been replaced by a forward
slash. -/
theorem C8_source_path_cex :
    candle_path (main_run 1 60 half (fun _ => 0) ufileBS "data/candles" "data/mapping.csv") 0 =
        some "data/candles/A\\B.csv" ∧
      mapping_source
        (main_run 1 60 half (fun _ => 0) ufileBS "data/candles" "data/mapping.csv") 0 =
        some "../data/candles/A/B.csv" ∧
      ¬ ("../data/candles/A/B.csv" = "../" ++ "data/candles/A\\B.csv") :=
  ⟨by decide, by decide, by decide⟩

/-- C8 amended: every mapping row's `source` is the row's symbol's
candle file path used as-is when that path is absolute, and otherwise
that path prefixed with one parent-directory step and with every
backslash replaced by a forward slash. -/
theorem C8_source_resolution_amended (L I : Int) (rng : Nat → ℚ) (clock : Nat → Int)
    (u : UniverseFile) (out mp : String) (n : Nat) :
    mapping_source (main_run L I rng clock u out mp) n =
      (mapping_symbol (main_run L I rng clock u out mp) n).map (fun sym =>
        if is_absolute (path_join out (sym ++ ".csv")) then path_join out (sym ++ ".csv")
        else replace_backslash ("../" ++ path_join out (sym ++ ".csv"))) := by
  by_cases hL : 0 < L
  · by_cases hI : 0 < I
    · cases hread : read_universe u with
      | error e =>
        rw [main_run_of_read_error L I rng clock u out mp e hL hI hread]
        rfl
      | ok rows =>
        rw [main_run_ok L I rng clock u out mp rows hL hI hread]
        show ((run_loop L.toNat I rng clock out (unique_symbols rows) 0 0).2[n]?).map
            MappingRow.source =
          (((run_loop L.toNat I rng clock out (unique_symbols rows) 0 0).2[n]?).map
            MappingRow.symbol).map (fun sym =>
              if is_absolute (path_join out (sym ++ ".csv")) then path_join out (sym ++ ".csv")
              else replace_backslash ("../" ++ path_join out (sym ++ ".csv")))
        rw [run_loop_mapping_getElem?]
        cases hsym : (unique_symbols rows)[n]? with
        | none => rfl
        | some p => rfl
    · have habort : main_run L I rng clock u out mp =
          .error "interval-seconds must be positive" := by
        unfold main_run
        rw [if_neg (by omega), if_pos (by omega)]
      rw [habort]
      rfl
  · have habort : main_run L I rng clock u out mp = .error "length must be positive" := by
      unfold main_run
      rw [if_pos (by omega)]
    rw [habort]
    rfl

theorem dedup_spec_eq_nil :
    ∀ (rows : List UniverseRow), (∀ r ∈ rows, py_strip r.symbol = "") → dedup_spec rows = []
  | [] => fun _ => by simp [dedup_spec]
  | r :: rest => fun h => by
    rw [dedup_spec_cons_of_empty r rest (h r (List.mem_cons_self r rest))]
    exact dedup_spec_eq_nil rest (fun r2 hr2 => h r2 (List.mem_cons_of_mem r hr2))

/-- C9: a universe row with a non-empty but whitespace-only symbol
survives loading (`read_universe` keeps it) yet is silently dropped in
deduplication; a universe whose rows all have such symbols therefore
yields a successful run with zero candle files and an empty (header
only) mapping file. -/
theorem C9_whitespace_universe (L I : Int) (rng : Nat → ℚ) (clock : Nat → Int)
    (u : UniverseFile) (out mp : String)
    (hL : 0 < L) (hI : 0 < I) (hp : u.present = true)
    (hh : ∀ c ∈ UNIVERSE_FIELDS, c ∈ u.header) (hne : u.rows ≠ [])
    (hws : ∀ r ∈ u.rows, ¬ r.symbol = "" ∧ py_strip r.symbol = "") :
    read_universe u = .ok u.rows ∧
      unique_symbols u.rows = [] ∧
      main_run L I rng clock u out mp = .ok ⟨[], (mp, [])⟩ := by
  have hfilter : u.rows.filter (fun r => ¬ r.symbol = "") = u.rows :=
    List.filter_eq_self.mpr (fun r hr => by simp [(hws r hr).1])
  have hread : read_universe u = .ok u.rows := by
    rw [read_universe_ok u hp hh (by rw [hfilter]; exact hne), hfilter]
  have huniq : unique_symbols u.rows = [] := by
    rw [unique_symbols_eq_dedup_spec]
    exact dedup_spec_eq_nil u.rows (fun r hr => (hws r hr).2)
  refine ⟨hread, huniq, ?_⟩
  rw [main_run_ok L I rng clock u out mp u.rows hL hI hread, huniq]
  rfl

/-- Witness for C9: the one-row whitespace-symbol universe loads, its
dedup is empty, and the run succeeds writing no candle file and an
empty mapping. -/
theorem C9_whitespace_universe_witness :
    read_universe ufileWS = .ok [rowWS] ∧
      unique_symbols [rowWS] = [] ∧
      main_run 1 60 half (fun _ => 0) ufileWS "data/candles" "data/mapping.csv" =
        .ok ⟨[], ("data/mapping.csv", [])⟩ :=
  C9_whitespace_universe 1 60 half (fun _ => 0) ufileWS "data/candles" "data/mapping.csv"
    (by norm_num) (by norm_num) rfl (by decide) (by decide) (by decide)
